import Mathlib

/-!
Verification of the Arkanoid game engine (arkanoid_full.c, first variant).

This file gives a shallow embedding of the game's collision and state
logic. Coordinates, which the C source stores in `float`, are modelled as
elements of an arbitrary linear ordered field (instantiated at `ℚ` for
executable checks and at `ℝ` where the source computes with `sinf`/`cosf`).
Integer-valued game counters (`score`, `lives`, `level`,
`bricks_remaining`, leaderboard entries) are modelled as `ℤ`, matching the
C `int` fields, whose values never approach overflow in this program.

The cosmetic subsystems of `update_engine` (particles, background stars,
falling collectibles) touch none of the fields the verified properties
speak about, and are omitted from the state; the collectible spawn on a
special brick is reflected by the brick's `special` flag being cleared.
Sound-effect playback (`Mix_PlayChannel`) and persistence calls are
modelled as emitted events.
-/

namespace Arkanoid

/-- Axis-aligned rectangle `{x, y, w, h}`, top-left origin, y downward.
Mirrors `RectF` of arkanoid_full.c. -/
structure Rect (α : Type) where
  x : α
  y : α
  w : α
  h : α
deriving DecidableEq, Repr

variable {α : Type} [LinearOrderedField α]

/-- `rect_overlap` (arkanoid_full.c lines 115-118):
`!(a.x + a.w <= b.x || b.x + b.w <= a.x || a.y + a.h <= b.y || b.y + b.h <= a.y)`. -/
def rectOverlap (a b : Rect α) : Prop :=
  ¬(a.x + a.w ≤ b.x ∨ b.x + b.w ≤ a.x ∨ a.y + a.h ≤ b.y ∨ b.y + b.h ≤ a.y)

instance (a b : Rect α) : Decidable (rectOverlap a b) := by
  unfold rectOverlap; infer_instance

/-- The four penetration-depth candidates of the brick-collision resolver
(`update_engine`, lines 373-376): left depth `ol`. -/
def penL (a br : Rect α) : α := a.x + a.w - br.x

/-- Right penetration depth `or` of the resolver. -/
def penR (a br : Rect α) : α := br.x + br.w - a.x

/-- Top penetration depth `ot` of the resolver. -/
def penT (a br : Rect α) : α := a.y + a.h - br.y

/-- Bottom penetration depth `ob` of the resolver. -/
def penB (a br : Rect α) : α := br.y + br.h - a.y

/-- The side of the brick the resolver bounces the ball off. -/
inductive Axis where
  | left
  | right
  | top
  | bottom
deriving DecidableEq, Repr

/-- Enumeration position of an axis in the resolver's comparison chain. -/
def axisIdx : Axis → ℕ
  | .left => 0
  | .right => 1
  | .top => 2
  | .bottom => 3

/-- Penetration depth of a given axis. -/
def axisDepth (a br : Rect α) : Axis → α
  | .left => penL a br
  | .right => penR a br
  | .top => penT a br
  | .bottom => penB a br

/-- The axis chosen by the brick-collision resolver (`update_engine` lines
377-397): `m = min(min(min(ol, or), ot), ob)`, then
`if (m == ol) ... else if (m == or) ... else if (m == ot) ... else ...`. -/
def penAxis (a br : Rect α) : Axis :=
  let m := min (min (min (penL a br) (penR a br)) (penT a br)) (penB a br)
  if m = penL a br then .left
  else if m = penR a br then .right
  else if m = penT a br then .top
  else .bottom

/-- `clamp_paddle_position` (arkanoid_full.c lines 109-113), as a function
of the paddle's x coordinate and width: `if (x < 0) x = 0;
if (x + w > WINDOW_WIDTH) x = WINDOW_WIDTH - w;` with WINDOW_WIDTH = 960. -/
def clampPaddle (x w : α) : α :=
  let x1 := if x < 0 then 0 else x
  if 960 < x1 + w then 960 - w else x1

theorem clampPaddle_mem (x w : α) (hw : w ≤ 960) :
    0 ≤ clampPaddle x w ∧ clampPaddle x w ≤ 960 - w := by
  unfold clampPaddle
  dsimp only
  split <;> split <;> constructor <;> linarith

/-- C7: the rectangle overlap test is symmetric, and it holds exactly when
the rectangles intersect on both axes with strict inequalities (touching
edges count as non-overlap). -/
theorem rectOverlap_symm_iff (a b : Rect ℚ) :
    (rectOverlap a b ↔ rectOverlap b a) ∧
    (rectOverlap a b ↔
      b.x < a.x + a.w ∧ a.x < b.x + b.w ∧ b.y < a.y + a.h ∧ a.y < b.y + b.h) := by
  unfold rectOverlap
  constructor
  · constructor <;> (intro h hc; apply h; tauto)
  · push_neg
    tauto

/-- C2: for overlapping rectangles, the resolver picks the axis of
smallest penetration depth, and every axis earlier in the fixed
left/right/top/bottom priority order has strictly larger depth (so ties
are always broken toward the earlier axis). -/
theorem penAxis_min (a br : Rect ℚ) (hov : rectOverlap a br) :
    (∀ ax, axisDepth a br (penAxis a br) ≤ axisDepth a br ax) ∧
    (∀ ax, axisIdx ax < axisIdx (penAxis a br) →
      axisDepth a br (penAxis a br) < axisDepth a br ax) := by
  clear hov
  unfold penAxis
  set l := penL a br with hl
  set r := penR a br with hr
  set t := penT a br with ht
  set b := penB a br with hb
  have hml : min (min (min l r) t) b ≤ l := le_trans (le_trans (min_le_left _ _) (min_le_left _ _)) (min_le_left _ _)
  have hmr : min (min (min l r) t) b ≤ r := le_trans (le_trans (min_le_left _ _) (min_le_left _ _)) (min_le_right _ _)
  have hmt : min (min (min l r) t) b ≤ t := le_trans (min_le_left _ _) (min_le_right _ _)
  have hmb : min (min (min l r) t) b ≤ b := min_le_right _ _
  have hcases : min (min (min l r) t) b = l ∨ min (min (min l r) t) b = r ∨
      min (min (min l r) t) b = t ∨ min (min (min l r) t) b = b := by
    rcases min_cases (min (min l r) t) b with ⟨h1, _⟩ | ⟨h1, _⟩
    · rcases min_cases (min l r) t with ⟨h2, _⟩ | ⟨h2, _⟩
      · rcases min_cases l r with ⟨h3, _⟩ | ⟨h3, _⟩
        · exact Or.inl (by rw [h1, h2, h3])
        · exact Or.inr (Or.inl (by rw [h1, h2, h3]))
      · exact Or.inr (Or.inr (Or.inl (by rw [h1, h2])))
    · exact Or.inr (Or.inr (Or.inr h1))
  dsimp only
  split
  · rename_i hc1
    constructor
    · intro ax
      cases ax <;> simp only [axisDepth] <;> linarith
    · intro ax hax
      simp only [axisIdx] at hax
      omega
  · rename_i hc1
    have hltl : min (min (min l r) t) b < l := lt_of_le_of_ne hml hc1
    split
    · rename_i hc2
      constructor
      · intro ax
        cases ax <;> simp only [axisDepth] <;> linarith
      · intro ax hax
        cases ax <;> simp only [axisIdx] at hax <;> simp only [axisDepth] <;>
          first
          | omega
          | linarith
    · rename_i hc2
      have hltr : min (min (min l r) t) b < r := lt_of_le_of_ne hmr hc2
      split
      · rename_i hc3
        constructor
        · intro ax
          cases ax <;> simp only [axisDepth] <;> linarith
        · intro ax hax
          cases ax <;> simp only [axisIdx] at hax <;> simp only [axisDepth] <;>
            first
            | omega
            | linarith
      · rename_i hc3
        have hltt : min (min (min l r) t) b < t := lt_of_le_of_ne hmt hc3
        have hmbe : min (min (min l r) t) b = b := by tauto
        constructor
        · intro ax
          cases ax <;> simp only [axisDepth] <;> linarith
        · intro ax hax
          cases ax <;> simp only [axisIdx] at hax <;> simp only [axisDepth] <;>
            first
            | omega
            | linarith

/-- A concrete ball rectangle used to exercise the resolver. -/
def ballRectEx : Rect ℚ := ⟨10, 10, 4, 4⟩

/-- A concrete brick rectangle overlapping `ballRectEx`. -/
def brickRectEx : Rect ℚ := ⟨12, 8, 8, 6⟩

/-- Witness for C2 at concrete overlapping rectangles: a ball square at
(10,10) size 4 overlapping a brick at (12,8) size 8x6. -/
theorem penAxis_min_witness :
    rectOverlap ballRectEx brickRectEx ∧
    ((∀ ax, axisDepth ballRectEx brickRectEx (penAxis ballRectEx brickRectEx) ≤
        axisDepth ballRectEx brickRectEx ax) ∧
      (∀ ax, axisIdx ax < axisIdx (penAxis ballRectEx brickRectEx) →
        axisDepth ballRectEx brickRectEx (penAxis ballRectEx brickRectEx) <
          axisDepth ballRectEx brickRectEx ax)) :=
  ⟨by norm_num [rectOverlap, ballRectEx, brickRectEx],
    penAxis_min ballRectEx brickRectEx
      (by norm_num [rectOverlap, ballRectEx, brickRectEx])⟩

/-- Brick record: `{rect, is_alive, color_index, special}`. -/
structure Brick (α : Type) where
  rect : Rect α
  isAlive : Bool
  colorIndex : ℕ
  special : Bool
deriving DecidableEq, Repr

/-- Paddle record: `{rect, velocity_x}`. -/
structure Paddle (α : Type) where
  rect : Rect α
  velocityX : α
deriving DecidableEq, Repr

/-- Ball record: `{rect, vx, vy, speed, is_held}`. -/
structure Ball (α : Type) where
  rect : Rect α
  vx : α
  vy : α
  speed : α
  isHeld : Bool
deriving DecidableEq, Repr

/-- `GameState` record of arkanoid_full.c. -/
structure GameState where
  score : ℤ
  lives : ℤ
  level : ℤ
  bricksRemaining : ℤ
  isPaused : Bool
  isRunning : Bool
  showMenu : Bool
deriving DecidableEq, Repr

/-- The whole mutable state `update_engine` reads and writes: the global
paddle, ball, brick array (row-major), game state, best score and
leaderboard of arkanoid_full.c. -/
structure World (α : Type) where
  paddle : Paddle α
  ball : Ball α
  bricks : List (Brick α)
  gs : GameState
  highScore : ℤ
  leaderboard : List ℤ
deriving DecidableEq, Repr

/-- Discrete side effects of one engine step: sound cues and the
persistence call `add_to_leaderboard(score)` (spec: `record(score)`). -/
inductive Event where
  | bounce
  | brickBreak (colorIndex : ℕ)
  | record (score : ℤ)
deriving DecidableEq, Repr

/-- One pass of the inner loop of `add_to_leaderboard` (lines 163-168):
running through the remaining entries with the current value of `tmp[i]`,
swapping whenever `tmp[j] > tmp[i]`; returns the final `tmp[i]` and the
entries left behind at positions `i+1..`. -/
def sortPass (c : ℤ) : List ℤ → ℤ × List ℤ
  | [] => (c, [])
  | x :: xs =>
    if c < x then
      let p := sortPass x xs
      (p.1, c :: p.2)
    else
      let p := sortPass c xs
      (p.1, x :: p.2)

theorem sortPass_snd_length (c : ℤ) (xs : List ℤ) :
    (sortPass c xs).2.length = xs.length := by
  induction xs generalizing c with
  | nil => rfl
  | cons x xs ih =>
    simp only [sortPass]
    split <;> simp [ih]

/-- The double loop of `add_to_leaderboard`: an exchange sort that leaves
`tmp` in descending order. -/
def exchangeSort : List ℤ → List ℤ
  | [] => []
  | x :: xs => (sortPass x xs).1 :: exchangeSort (sortPass x xs).2
termination_by l => l.length
decreasing_by
  simp only [sortPass_snd_length, List.length_cons]
  omega

/-- `add_to_leaderboard` (arkanoid_full.c lines 157-171) on the in-memory
leaderboard list: no-op for `score <= 0`; otherwise append the score,
exchange-sort the 6 entries descending, keep the first `LEADERBOARD_N = 5`
and persist (the returned flag records whether `save_leaderboard` ran). -/
def addToLeaderboard (board : List ℤ) (score : ℤ) : List ℤ × Bool :=
  if score ≤ 0 then (board, false)
  else ((exchangeSort (board ++ [score])).take 5, true)

/-- `BALL_SPEED_GROWTH` (1.0f): the paddle-hit speed multiplier. -/
def ballSpeedGrowth : α := 1

/-- Ball motion of `update_engine` (lines 328-334): free flight integrates
`position += direction * speed * dt`; a held ball snaps to the paddle. -/
def ballMotion (w : World α) (dt : α) : World α :=
  if w.ball.isHeld = false then
    { w with ball := { w.ball with rect := { w.ball.rect with
        x := w.ball.rect.x + w.ball.vx * w.ball.speed * dt,
        y := w.ball.rect.y + w.ball.vy * w.ball.speed * dt } } }
  else
    { w with ball := { w.ball with rect := { w.ball.rect with
        x := w.paddle.rect.x + (w.paddle.rect.w - w.ball.rect.w) / 2,
        y := w.paddle.rect.y - w.ball.rect.h - 2 } } }

/-- Wall collisions of `update_engine` (lines 336-352): three sequential
clamping checks against the left, right and top edges, each inverting one
direction component and emitting a bounce cue. -/
def wallPhase (w : World α) : World α × List Event :=
  if w.ball.isHeld = true then (w, [])
  else
    let s1 :=
      if w.ball.rect.x ≤ 0 then
        ({ w.ball with rect := { w.ball.rect with x := 0 }, vx := |w.ball.vx| },
          [Event.bounce])
      else (w.ball, [])
    let s2 :=
      if 960 ≤ s1.1.rect.x + s1.1.rect.w then
        ({ s1.1 with rect := { s1.1.rect with x := 960 - s1.1.rect.w }, vx := -|s1.1.vx| },
          [Event.bounce])
      else (s1.1, [])
    let s3 :=
      if s2.1.rect.y ≤ 0 then
        ({ s2.1 with rect := { s2.1.rect with y := 0 }, vy := |s2.1.vy| },
          [Event.bounce])
      else (s2.1, [])
    ({ w with ball := s3.1 }, s1.2 ++ s2.2 ++ s3.2)

/-- The normalized impact offset of the paddle bounce (line 355):
`((ballCenterX) - (paddleCenterX)) / (paddleWidth / 2)`. -/
def impactOffset (w : World α) : α :=
  ((w.ball.rect.x + w.ball.rect.w / 2) - (w.paddle.rect.x + w.paddle.rect.w / 2)) /
    (w.paddle.rect.w / 2)

/-- The two sequential clamping checks of lines 356-357:
`if (impact < -1) impact = -1; if (impact > 1) impact = 1;`. -/
def clampUnit (v : α) : α :=
  let v1 := if v < -1 then -1 else v
  if 1 < v1 then 1 else v1

theorem clampUnit_mem (v : α) : -1 ≤ clampUnit v ∧ clampUnit v ≤ 1 := by
  unfold clampUnit
  dsimp only
  split <;> split <;> constructor <;> linarith

/-- Paddle collision of `update_engine` (lines 354-364), parametric in the
direction map `bdir`, which stands for the C computation
`(sinf(impact * 75deg), -cosf(impact * 75deg))` of the new unit direction
from the clamped impact offset. -/
def paddlePhase (bdir : α → α × α) (w : World α) : World α × List Event :=
  if w.ball.isHeld = false ∧ 0 < w.ball.vy ∧ rectOverlap w.ball.rect w.paddle.rect then
    let impact := clampUnit (impactOffset w)
    let d := bdir impact
    ({ w with ball := { w.ball with
        vx := d.1,
        vy := d.2,
        speed := w.ball.speed * ballSpeedGrowth,
        rect := { w.ball.rect with y := w.paddle.rect.y - w.ball.rect.h - 1 } } },
      [Event.bounce])
  else (w, [])

/-- The position/direction adjustment against a hit brick
(`update_engine` lines 382-397), keyed by the minimum-penetration axis. -/
def resolvePenetration (b : Ball α) (br : Rect α) : Ball α :=
  match penAxis b.rect br with
  | .left => { b with rect := { b.rect with x := b.rect.x - penL b.rect br }, vx := -|b.vx| }
  | .right => { b with rect := { b.rect with x := b.rect.x + penR b.rect br }, vx := |b.vx| }
  | .top => { b with rect := { b.rect with y := b.rect.y - penT b.rect br }, vy := -|b.vy| }
  | .bottom => { b with rect := { b.rect with y := b.rect.y + penB b.rect br }, vy := |b.vy| }

/-- The brick-scan hit test: the brick is live and the ball rect overlaps
its rect. -/
def hitsBrick (b : Ball α) (br : Brick α) : Prop :=
  br.isAlive = true ∧ rectOverlap b.rect br.rect

instance (b : Ball α) (br : Brick α) : Decidable (hitsBrick b br) := by
  unfold hitsBrick; infer_instance

/-- The row-major brick scan of `update_engine` (lines 366-431): the first
live overlapping brick is bounced off, killed (its special flag cleared as
its collectible drops) and the ball's speed grows by 1.015; the `goto
after_brick` makes the scan stop there, leaving every later brick
untouched. Returns the updated brick list and, on a hit, the updated ball
and the hit brick's color index. -/
def brickScan (b : Ball α) : List (Brick α) → List (Brick α) × Option (Ball α × ℕ)
  | [] => ([], none)
  | br :: rest =>
    if hitsBrick b br then
      let b1 := resolvePenetration b br.rect
      ({ br with isAlive := false, special := false } :: rest,
        some ({ b1 with speed := b1.speed * (203 / 200) }, br.colorIndex))
    else
      let p := brickScan b rest
      (br :: p.1, p.2)

/-- Brick collision phase of `update_engine`: runs the scan when the ball
is free, and on a hit decrements `bricks_remaining` and awards the
10-point brick score (`add_score_for_brick`), emitting the break cue. -/
def brickPhase (w : World α) : World α × List Event :=
  if w.ball.isHeld = true then (w, [])
  else
    let p := brickScan w.ball w.bricks
    match p.2 with
    | none => ({ w with bricks := p.1 }, [])
    | some bc =>
      ({ w with
          bricks := p.1,
          ball := bc.1,
          gs := { w.gs with
            bricksRemaining := w.gs.bricksRemaining - 1,
            score := w.gs.score + 10 } },
        [Event.brickBreak bc.2])

/-- Count of live bricks, the value `reset_level` stores into
`bricks_remaining`. -/
def countAlive (bs : List (Brick α)) : ℤ :=
  ((bs.filter (fun b => b.isAlive)).length : ℤ)

/-- The state effect of `reset_level(lvl)` (lines 213-245) given the brick
layout the level provider produced: install the bricks and their live
count, center the paddle, and re-arm the held ball above it at the initial
speed with direction straight up. -/
def resetLevelState (layout : ℤ → List (Brick α)) (lvl : ℤ) (w : World α) : World α :=
  let bricks := layout lvl
  let px := (960 - w.paddle.rect.w) / 2
  let py : α := 640 - 64
  { w with
    bricks := bricks,
    gs := { w.gs with level := lvl, bricksRemaining := countAlive bricks },
    paddle := { w.paddle with rect := { w.paddle.rect with x := px, y := py } },
    ball := { w.ball with
      rect := { w.ball.rect with
        x := px + (w.paddle.rect.w - w.ball.rect.w) / 2,
        y := py - w.ball.rect.h - 2 },
      vx := 0, vy := -1, speed := 420, isHeld := true } }

/-- Out-of-bounds check of `update_engine` (lines 433-451): a free ball
below the bottom edge costs a life; at zero lives the session turns
terminal (`show_menu = 1`, `is_running = 0`), the best score is updated
and the score is pushed to the leaderboard (`record`); otherwise the ball
re-arms held at initial speed and the paddle recenters. -/
def lifePhase (w : World α) : World α × List Event :=
  if w.ball.isHeld = false ∧ 640 < w.ball.rect.y then
    let lives' := w.gs.lives - 1
    if lives' ≤ 0 then
      let hs := if w.highScore < w.gs.score then w.gs.score else w.highScore
      ({ w with
          highScore := hs,
          leaderboard := (addToLeaderboard w.leaderboard w.gs.score).1,
          gs := { w.gs with lives := lives', showMenu := true, isRunning := false } },
        [Event.bounce, Event.record w.gs.score])
    else
      ({ w with
          gs := { w.gs with lives := lives' },
          ball := { w.ball with isHeld := true, speed := 420, vx := 0, vy := -1 },
          paddle := { w.paddle with rect :=
            { w.paddle.rect with x := (960 - w.paddle.rect.w) / 2 } } },
        [Event.bounce])
  else (w, [])

/-- Level-clear check of `update_engine` (lines 453-466): at
`bricks_remaining <= 0` the level increments; beyond `MAX_LEVELS = 10` the
session turns terminal and the score is recorded, otherwise
`reset_level` installs the next level's layout. -/
def levelPhase (layout : ℤ → List (Brick α)) (w : World α) : World α × List Event :=
  if w.gs.bricksRemaining ≤ 0 then
    let lvl := w.gs.level + 1
    if 10 < lvl then
      let hs := if w.highScore < w.gs.score then w.gs.score else w.highScore
      ({ w with
          highScore := hs,
          leaderboard := (addToLeaderboard w.leaderboard w.gs.score).1,
          gs := { w.gs with level := lvl, showMenu := true, isRunning := false } },
        [Event.record w.gs.score])
    else (resetLevelState layout lvl w, [])
  else (w, [])

/-- The engine state after the motion, wall, paddle and brick phases of a
step — the state the out-of-bounds check then looks at. -/
def preLifeState (bdir : α → α × α) (w : World α) (dt : α) : World α :=
  (brickPhase (paddlePhase bdir (wallPhase (ballMotion w dt)).1).1).1

/-- `update_engine(dt)` (arkanoid_full.c lines 324-479): skip unless
actively playing, then motion, wall, paddle and brick collisions, the
life and level checks, in source order. `layout` abstracts the level
provider (`load_level_from_file` or the procedural fallback); `bdir`
abstracts the paddle-bounce trigonometry. The purely cosmetic particle,
collectible and star updates are omitted. -/
def updateEngine (layout : ℤ → List (Brick α)) (bdir : α → α × α)
    (w : World α) (dt : α) : World α × List Event :=
  if w.gs.isRunning = false ∨ w.gs.isPaused = true ∨ w.gs.showMenu = true then (w, [])
  else
    let w1 := ballMotion w dt
    let p2 := wallPhase w1
    let p3 := paddlePhase bdir p2.1
    let p4 := brickPhase p3.1
    let p5 := lifePhase p4.1
    let p6 := levelPhase layout p5.1
    (p6.1, p2.2 ++ p3.2 ++ p4.2 ++ p5.2 ++ p6.2)

theorem sortPass_perm (c : ℤ) (xs : List ℤ) :
    List.Perm ((sortPass c xs).1 :: (sortPass c xs).2) (c :: xs) := by
  induction xs generalizing c with
  | nil => rfl
  | cons x xs ih =>
    simp only [sortPass]
    split
    · exact (List.Perm.swap c (sortPass x xs).1 (sortPass x xs).2).trans
        ((ih x).cons c)
    · exact ((List.Perm.swap x (sortPass c xs).1 (sortPass c xs).2).trans
        ((ih c).cons x)).trans (List.Perm.swap c x xs)

theorem sortPass_fst_max (c : ℤ) (xs : List ℤ) :
    c ≤ (sortPass c xs).1 ∧ ∀ y ∈ (sortPass c xs).2, y ≤ (sortPass c xs).1 := by
  induction xs generalizing c with
  | nil => exact ⟨le_refl c, by simp [sortPass]⟩
  | cons x xs ih =>
    simp only [sortPass]
    split
    · rename_i hlt
      refine ⟨le_trans (le_of_lt hlt) (ih x).1, ?_⟩
      intro y hy
      rcases List.mem_cons.mp hy with rfl | hy
      · exact le_trans (le_of_lt hlt) (ih x).1
      · exact (ih x).2 y hy
    · rename_i hge
      refine ⟨(ih c).1, ?_⟩
      intro y hy
      rcases List.mem_cons.mp hy with rfl | hy
      · exact le_trans (not_lt.mp hge) (ih c).1
      · exact (ih c).2 y hy

theorem exchangeSort_perm_aux :
    ∀ (n : ℕ) (l : List ℤ), l.length ≤ n → List.Perm (exchangeSort l) l := by
  intro n
  induction n with
  | zero =>
    intro l hl
    rw [List.length_eq_zero.mp (Nat.le_zero.mp hl)]
    simp [exchangeSort]
  | succ n ih =>
    intro l hl
    match l with
    | [] => simp [exchangeSort]
    | x :: xs =>
      rw [exchangeSort]
      have hlen : (sortPass x xs).2.length ≤ n := by
        rw [sortPass_snd_length]
        simpa using hl
      exact (((ih _ hlen).cons (sortPass x xs).1).trans (sortPass_perm x xs))

/-- The exchange sort of `add_to_leaderboard` permutes its input. -/
theorem exchangeSort_perm (l : List ℤ) : List.Perm (exchangeSort l) l :=
  exchangeSort_perm_aux l.length l le_rfl

theorem exchangeSort_sorted_aux :
    ∀ (n : ℕ) (l : List ℤ), l.length ≤ n →
      (exchangeSort l).Sorted (fun a b => b ≤ a) := by
  intro n
  induction n with
  | zero =>
    intro l hl
    rw [List.length_eq_zero.mp (Nat.le_zero.mp hl)]
    simp [exchangeSort]
  | succ n ih =>
    intro l hl
    match l with
    | [] => simp [exchangeSort]
    | x :: xs =>
      rw [exchangeSort]
      have hlen : (sortPass x xs).2.length ≤ n := by
        rw [sortPass_snd_length]
        simpa using hl
      refine List.sorted_cons.mpr ⟨?_, ih _ hlen⟩
      intro y hy
      have hy2 : y ∈ (sortPass x xs).2 :=
        (exchangeSort_perm_aux n _ hlen).mem_iff.mp hy
      exact (sortPass_fst_max x xs).2 y hy2

/-- The exchange sort of `add_to_leaderboard` sorts descending. -/
theorem exchangeSort_sorted (l : List ℤ) :
    (exchangeSort l).Sorted (fun a b => b ≤ a) :=
  exchangeSort_sorted_aux l.length l le_rfl

/-- C10: `add_to_leaderboard` with a non-positive score is a complete
no-op — the in-memory leaderboard is unchanged and `save_leaderboard` is
not called. -/
theorem addToLeaderboard_nonpos_noop (board : List ℤ) (score : ℤ)
    (h : score ≤ 0) : addToLeaderboard board score = (board, false) := by
  unfold addToLeaderboard
  rw [if_pos h]

/-- Witness for C10: recording a zero score leaves a concrete leaderboard
untouched and unsaved. -/
theorem addToLeaderboard_nonpos_noop_witness :
    (0 : ℤ) ≤ 0 ∧ addToLeaderboard [50, 40, 30, 20, 10] 0 = ([50, 40, 30, 20, 10], false) :=
  ⟨le_refl 0, addToLeaderboard_nonpos_noop [50, 40, 30, 20, 10] 0 (le_refl 0)⟩

/-- C9: for a positive score and the 5-entry board, `add_to_leaderboard`
persists, and the new board is the 5 largest entries of the old board
plus the score, in descending order; the score survives iff it is at
least as large as some (hence the smallest) surviving entry. -/
theorem addToLeaderboard_record (board : List ℤ) (score : ℤ)
    (hpos : 0 < score) (hlen : board.length = 5) :
    (addToLeaderboard board score).2 = true ∧
    (addToLeaderboard board score).1.length = 5 ∧
    (addToLeaderboard board score).1.Sorted (fun a b => b ≤ a) ∧
    (∃ dropped, List.Perm (board ++ [score]) ((addToLeaderboard board score).1 ++ [dropped]) ∧
      ∀ x ∈ (addToLeaderboard board score).1, dropped ≤ x) ∧
    (score ∈ (addToLeaderboard board score).1 ↔
      ∃ y ∈ (addToLeaderboard board score).1, y ≤ score) := by
  have hns : ¬ score ≤ 0 := not_le.mpr hpos
  unfold addToLeaderboard
  rw [if_neg hns]
  dsimp only
  set full := exchangeSort (board ++ [score]) with hfull
  have hperm : List.Perm full (board ++ [score]) := exchangeSort_perm _
  have hsorted : full.Sorted (fun a b => b ≤ a) := exchangeSort_sorted _
  have hflen : full.length = 6 := by
    rw [hperm.length_eq, List.length_append, hlen]
    rfl
  have hsplit : full.take 5 ++ full.drop 5 = full := List.take_append_drop 5 full
  have hdlen : (full.drop 5).length = 1 := by
    rw [List.length_drop, hflen]
  obtain ⟨d, hd⟩ := List.length_eq_one.mp hdlen
  have htake : (full.take 5).length = 5 := by
    rw [List.length_take, hflen]
    rfl
  have hrel : ∀ x ∈ full.take 5, d ≤ x := by
    intro x hx
    exact hsorted.rel_of_mem_take_of_mem_drop hx (by rw [hd]; exact List.mem_singleton_self d)
  have hperm2 : List.Perm (board ++ [score]) (full.take 5 ++ [d]) := by
    rw [← hd, hsplit]
    exact hperm.symm
  refine ⟨rfl, htake, List.Pairwise.sublist (List.take_sublist 5 full) hsorted,
    ⟨d, hperm2, hrel⟩, ?_⟩
  constructor
  · intro hmem
    exact ⟨score, hmem, le_refl score⟩
  · rintro ⟨y, hy, hyle⟩
    by_contra hnot
    have hsc : score ∈ full.take 5 ++ [d] :=
      hperm2.mem_iff.mp (by simp)
    have hsd : score = d := by
      rcases List.mem_append.mp hsc with h1 | h1
      · exact absurd h1 hnot
      · simpa using h1
    have : score ≤ y := hsd ▸ hrel y hy
    have : y = score := le_antisymm hyle this
    exact hnot (this ▸ hy)

/-- Witness for C9: recording 25 into the board [50, 40, 30, 20, 10]. -/
theorem addToLeaderboard_record_witness :
    (addToLeaderboard [50, 40, 30, 20, 10] 25).2 = true ∧
    (addToLeaderboard [50, 40, 30, 20, 10] 25).1.length = 5 ∧
    (addToLeaderboard [50, 40, 30, 20, 10] 25).1.Sorted (fun a b => b ≤ a) ∧
    (∃ dropped, List.Perm (([50, 40, 30, 20, 10] : List ℤ) ++ [25])
        ((addToLeaderboard [50, 40, 30, 20, 10] 25).1 ++ [dropped]) ∧
      ∀ x ∈ (addToLeaderboard [50, 40, 30, 20, 10] 25).1, dropped ≤ x) ∧
    ((25 : ℤ) ∈ (addToLeaderboard [50, 40, 30, 20, 10] 25).1 ↔
      ∃ y ∈ (addToLeaderboard [50, 40, 30, 20, 10] 25).1, y ≤ 25) :=
  addToLeaderboard_record [50, 40, 30, 20, 10] 25 (by norm_num) rfl

/-- The cell coordinates `(row, col)` of the brick grid in the row-major
order the `reset_level` loops visit them (`BRICK_ROWS = 7`,
`BRICK_COLUMNS = 12`). -/
def fallbackCells : List (ℕ × ℕ) :=
  (List.range 7).flatMap (fun r => (List.range 12).map (fun c => (r, c)))

/-- Liveness rule of the procedural fallback of `reset_level` (line 225):
`(level <= 1) || ((r + c + level) % (1 + level / 2) != 0)`. -/
def fallbackAlive (level r c : ℕ) : Bool :=
  decide (level ≤ 1) || decide ((r + c + level) % (1 + level / 2) ≠ 0)

/-- Brick geometry of `reset_level`: width `BRICK_WIDTH - BRICK_PADDING`,
height `BRICK_HEIGHT - BRICK_PADDING`, at
`(c * BRICK_WIDTH + BRICK_PADDING/2, 80 + r * (BRICK_HEIGHT + BRICK_PADDING))`. -/
def mkFallbackRect (r c : ℕ) : Rect ℚ :=
  ⟨(c : ℚ) * 80 + 2, 80 + (r : ℚ) * 32, 76, 24⟩

/-- The procedural-fallback loop body of `reset_level` (lines 217-234)
over the remaining cells. `rnd` is the pseudo-random stream consumed by
the `rand() % 18 == 0` special-brick draw, and `k` counts the `rand()`
calls made so far; returns the bricks, the live count accumulated into
`bricks_remaining`, and the next stream position. -/
def fallbackBuild (level : ℕ) (rnd : ℕ → ℕ) :
    List (ℕ × ℕ) → ℕ → List (Brick ℚ) × ℤ × ℕ
  | [], k => ([], 0, k)
  | rc :: rest, k =>
    if fallbackAlive level rc.1 rc.2 = true then
      let sp := decide (rnd k % 18 = 0)
      let p := fallbackBuild level rnd rest (k + 1)
      ({ rect := mkFallbackRect rc.1 rc.2, isAlive := true,
          colorIndex := (rc.1 + rc.2 + level) % 10, special := sp } :: p.1,
        p.2.1 + 1, p.2.2)
    else
      let p := fallbackBuild level rnd rest k
      ({ rect := mkFallbackRect rc.1 rc.2, isAlive := false,
          colorIndex := (rc.1 + rc.2 + level) % 10, special := false } :: p.1,
        p.2.1, p.2.2)

/-- The procedural fallback branch of `reset_level(level)` (run when
`load_level_from_file` finds no level file): the produced brick grid and
the value stored into `bricks_remaining`, as a function of the level and
of the `rand()` stream. -/
def resetLevelFallback (level : ℕ) (rnd : ℕ → ℕ) : List (Brick ℚ) × ℤ :=
  let p := fallbackBuild level rnd fallbackCells 0
  (p.1, p.2.1)

/-- C8 counterexample: the fallback layout is not a function of the level
alone — at level 1, an all-zero `rand()` stream marks every brick special
(`rand() % 18 == 0`) while an all-one stream marks none, so two runs of
`reset_level(1)` differ. -/
theorem resetLevelFallback_not_deterministic :
    resetLevelFallback 1 (fun _ => 0) ≠ resetLevelFallback 1 (fun _ => 1) := by
  intro h
  have h1 : ((resetLevelFallback 1 (fun _ => 0)).1.map Brick.special) =
      ((resetLevelFallback 1 (fun _ => 1)).1.map Brick.special) := by rw [h]
  have h0 : ((resetLevelFallback 1 (fun _ => 0)).1.map Brick.special).head? = some true := by
    rfl
  rw [h1] at h0
  have h2 : ((resetLevelFallback 1 (fun _ => 1)).1.map Brick.special).head? = some false := by
    rfl
  rw [h0] at h2
  simp at h2

theorem fallbackBuild_rnd_irrelevant (level : ℕ) (rnd1 rnd2 : ℕ → ℕ) :
    ∀ (cells : List (ℕ × ℕ)) (k1 k2 : ℕ),
      ((fallbackBuild level rnd1 cells k1).1.map
          (fun b => (b.rect, b.isAlive, b.colorIndex)) =
        (fallbackBuild level rnd2 cells k2).1.map
          (fun b => (b.rect, b.isAlive, b.colorIndex))) ∧
      (fallbackBuild level rnd1 cells k1).2.1 = (fallbackBuild level rnd2 cells k2).2.1 := by
  intro cells
  induction cells with
  | nil => intro k1 k2; exact ⟨rfl, rfl⟩
  | cons rc rest ih =>
    intro k1 k2
    simp only [fallbackBuild]
    split
    · simpa using ih (k1 + 1) (k2 + 1)
    · simpa using ih k1 k2

/-- C8 amended: with the `rand()` stream factored out, the fallback layout
is a deterministic pure function of the level number — two runs of
`reset_level(level)` with no level file agree on every brick's geometry,
alive flag and color index, and on `bricks_remaining`; only the
special-brick flags depend on the stream. -/
theorem resetLevelFallback_deterministic_except_special
    (level : ℕ) (rnd1 rnd2 : ℕ → ℕ) :
    ((resetLevelFallback level rnd1).1.map
        (fun b => (b.rect, b.isAlive, b.colorIndex)) =
      (resetLevelFallback level rnd2).1.map
        (fun b => (b.rect, b.isAlive, b.colorIndex))) ∧
    (resetLevelFallback level rnd1).2 = (resetLevelFallback level rnd2).2 :=
  fallbackBuild_rnd_irrelevant level rnd1 rnd2 fallbackCells 0 0

theorem ballMotion_gs (w : World α) (dt : α) : (ballMotion w dt).gs = w.gs := by
  unfold ballMotion
  split <;> rfl

theorem wallPhase_gs (w : World α) : (wallPhase w).1.gs = w.gs := by
  unfold wallPhase
  split <;> rfl

theorem paddlePhase_gs (bdir : α → α × α) (w : World α) :
    (paddlePhase bdir w).1.gs = w.gs := by
  unfold paddlePhase
  split <;> rfl

theorem brickPhase_score_mono (w : World α) :
    w.gs.score ≤ (brickPhase w).1.gs.score := by
  unfold brickPhase
  split
  · exact le_refl _
  · dsimp only
    cases (brickScan w.ball w.bricks).2 with
    | none => exact le_refl _
    | some bc => dsimp only; omega

theorem lifePhase_score (w : World α) : (lifePhase w).1.gs.score = w.gs.score := by
  unfold lifePhase
  split
  · dsimp only
    split <;> rfl
  · rfl

theorem levelPhase_score (layout : ℤ → List (Brick α)) (w : World α) :
    (levelPhase layout w).1.gs.score = w.gs.score := by
  unfold levelPhase
  split
  · dsimp only
    split <;> rfl
  · rfl

theorem updateEngine_score_mono (layout : ℤ → List (Brick α)) (bdir : α → α × α)
    (w : World α) (dt : α) :
    w.gs.score ≤ (updateEngine layout bdir w dt).1.gs.score := by
  unfold updateEngine
  split
  · exact le_refl _
  · show w.gs.score ≤ (levelPhase layout (lifePhase (brickPhase
      (paddlePhase bdir (wallPhase (ballMotion w dt)).1).1).1).1).1.gs.score
    rw [levelPhase_score, lifePhase_score]
    calc w.gs.score
        = (paddlePhase bdir (wallPhase (ballMotion w dt)).1).1.gs.score := by
          rw [paddlePhase_gs, wallPhase_gs, ballMotion_gs]
      _ ≤ _ := brickPhase_score_mono _

/-- C5: across any sequence of engine steps (any dt values, any level
provider, any paddle-bounce map), the score never decreases. -/
theorem score_monotone_c5 (layout : ℤ → List (Brick α)) (bdir : α → α × α)
    (w : World α) (dts : List α) :
    w.gs.score ≤
      (dts.foldl (fun st dt => (updateEngine layout bdir st dt).1) w).gs.score := by
  induction dts generalizing w with
  | nil => exact le_refl _
  | cons dt dts ih =>
    exact le_trans (updateEngine_score_mono layout bdir w dt)
      (ih ((updateEngine layout bdir w dt).1))

/-- C6: after the per-frame paddle move `x += vx * dt` followed by
`clamp_paddle_position`, the paddle x lies within
`[0, WINDOW_WIDTH - paddle.w]`, and likewise after the pointer-move
repositioning `x = mx - w/2` followed by the same clamp. -/
theorem paddle_clamp_c6 (x0 vx dt w : ℚ) (hw : w ≤ 960) :
    (0 ≤ clampPaddle (x0 + vx * dt) w ∧ clampPaddle (x0 + vx * dt) w ≤ 960 - w) ∧
    ∀ mx : ℚ, 0 ≤ clampPaddle (mx - w / 2) w ∧ clampPaddle (mx - w / 2) w ≤ 960 - w :=
  ⟨clampPaddle_mem _ _ hw, fun _ => clampPaddle_mem _ _ hw⟩

/-- Witness for C6: a frame moving the 140-wide paddle right at full speed
(`PADDLE_SPEED = 800`) from x = 900 for dt = 1/20. -/
theorem paddle_clamp_c6_witness :
    (140 : ℚ) ≤ 960 ∧
    ((0 ≤ clampPaddle ((900 : ℚ) + 800 * (1 / 20)) 140 ∧
        clampPaddle ((900 : ℚ) + 800 * (1 / 20)) 140 ≤ 960 - 140) ∧
      ∀ mx : ℚ, 0 ≤ clampPaddle (mx - 140 / 2) 140 ∧
        clampPaddle (mx - 140 / 2) 140 ≤ 960 - 140) :=
  ⟨by norm_num, paddle_clamp_c6 900 800 (1 / 20) 140 (by norm_num)⟩

/-- The position of the first live brick the ball overlaps, in the scan
order of the brick list (the engine scans the brick array row-major). -/
def firstHit (b : Ball α) : List (Brick α) → Option ℕ
  | [] => none
  | br :: rest => if hitsBrick b br then some 0 else (firstHit b rest).map (· + 1)

theorem firstHit_isSome (b : Ball α) (bs : List (Brick α))
    (hne : ∃ br ∈ bs, hitsBrick b br) : ∃ i, firstHit b bs = some i := by
  induction bs with
  | nil => simp at hne
  | cons br rest ih =>
    by_cases hh : hitsBrick b br
    · exact ⟨0, by simp [firstHit, hh]⟩
    · obtain ⟨br2, hmem, hhit⟩ := hne
      rcases List.mem_cons.mp hmem with rfl | hmem2
      · exact absurd hhit hh
      · obtain ⟨j, hj⟩ := ih ⟨br2, hmem2, hhit⟩
        exact ⟨j + 1, by simp [firstHit, hh, hj]⟩

theorem brickScan_at_firstHit (b : Ball α) (bs : List (Brick α)) :
    ∀ i, firstHit b bs = some i →
      ∃ br, bs[i]? = some br ∧ hitsBrick b br ∧
        (brickScan b bs).1 = bs.set i { br with isAlive := false, special := false } ∧
        (brickScan b bs).2 =
          some ({ resolvePenetration b br.rect with
            speed := (resolvePenetration b br.rect).speed * (203 / 200) }, br.colorIndex) := by
  induction bs with
  | nil => intro i h; simp [firstHit] at h
  | cons br rest ih =>
    intro i h
    by_cases hh : hitsBrick b br
    · have hi0 : i = 0 := by
        simp [firstHit, hh] at h
        omega
      subst hi0
      exact ⟨br, by simp, hh, by simp [brickScan, hh], by simp [brickScan, hh]⟩
    · simp only [firstHit, if_neg hh, Option.map_eq_some'] at h
      obtain ⟨j, hj, hji⟩ := h
      obtain ⟨br2, hget, hhit, h1, h2⟩ := ih j hj
      subst hji
      refine ⟨br2, by simpa using hget, hhit, ?_, ?_⟩
      · simp [brickScan, hh, h1, List.set]
      · simp [brickScan, hh, h2]

/-- C1: in any engine step where the free ball geometrically overlaps two
or more live bricks, the brick phase kills exactly the first overlapping
live brick in scan order (every other brick, before and after it, is left
untouched — the scan stops at the first hit), decrements
`bricks_remaining` by exactly 1 and awards the single brick score. -/
theorem brick_destruction_single_c1 (w : World ℚ) (hheld : w.ball.isHeld = false)
    (htwo : 2 ≤ (w.bricks.filter (fun br => decide (hitsBrick w.ball br))).length) :
    ∃ i br, firstHit w.ball w.bricks = some i ∧
      w.bricks[i]? = some br ∧ hitsBrick w.ball br ∧
      (brickPhase w).1.bricks =
        w.bricks.set i { br with isAlive := false, special := false } ∧
      (brickPhase w).1.gs.bricksRemaining = w.gs.bricksRemaining - 1 ∧
      (brickPhase w).1.gs.score = w.gs.score + 10 := by
  have hne : ∃ br ∈ w.bricks, hitsBrick w.ball br := by
    have hpos : 0 < (w.bricks.filter (fun br => decide (hitsBrick w.ball br))).length := by
      omega
    obtain ⟨br, hbr⟩ := List.exists_mem_of_length_pos hpos
    have := List.mem_filter.mp hbr
    exact ⟨br, this.1, of_decide_eq_true this.2⟩
  obtain ⟨i, hi⟩ := firstHit_isSome w.ball w.bricks hne
  obtain ⟨br, hget, hhit, h1, h2⟩ := brickScan_at_firstHit w.ball w.bricks i hi
  refine ⟨i, br, hi, hget, hhit, ?_, ?_, ?_⟩ <;>
    (unfold brickPhase
     rw [if_neg (by rw [hheld]; exact Bool.false_ne_true)]
     dsimp only
     rw [h2]
     all_goals dsimp only
     all_goals exact h1)

/-- A concrete engine state in which the free ball overlaps the two live
bricks at scan positions 1 and 2 (position 0 holds a dead brick). -/
def wC1 : World ℚ :=
  { paddle := { rect := ⟨410, 576, 140, 18⟩, velocityX := 0 },
    ball := { rect := ⟨10, 10, 4, 4⟩, vx := 0, vy := 1, speed := 420, isHeld := false },
    bricks := [
      { rect := ⟨100, 100, 8, 6⟩, isAlive := false, colorIndex := 1, special := false },
      { rect := ⟨12, 8, 8, 6⟩, isAlive := true, colorIndex := 3, special := false },
      { rect := ⟨8, 8, 8, 6⟩, isAlive := true, colorIndex := 4, special := true } ],
    gs := { score := 0, lives := 3, level := 1, bricksRemaining := 2,
            isPaused := false, isRunning := true, showMenu := false },
    highScore := 0,
    leaderboard := [0, 0, 0, 0, 0] }

/-- Witness for C1: in `wC1` the ball overlaps two live bricks, and the
brick phase destroys exactly the first of them. -/
theorem brick_destruction_single_c1_witness :
    wC1.ball.isHeld = false ∧
    2 ≤ (wC1.bricks.filter (fun br => decide (hitsBrick wC1.ball br))).length ∧
    (∃ i br, firstHit wC1.ball wC1.bricks = some i ∧
      wC1.bricks[i]? = some br ∧ hitsBrick wC1.ball br ∧
      (brickPhase wC1).1.bricks =
        wC1.bricks.set i { br with isAlive := false, special := false } ∧
      (brickPhase wC1).1.gs.bricksRemaining = wC1.gs.bricksRemaining - 1 ∧
      (brickPhase wC1).1.gs.score = wC1.gs.score + 10) :=
  ⟨rfl, by norm_num [wC1, hitsBrick, rectOverlap, List.filter],
    brick_destruction_single_c1 wC1 rfl
      (by norm_num [wC1, hitsBrick, rectOverlap, List.filter])⟩

theorem ballMotion_vy (w : World α) (dt : α) :
    (ballMotion w dt).ball.vy = w.ball.vy := by
  unfold ballMotion
  split <;> rfl

theorem ballMotion_held (w : World α) (dt : α) :
    (ballMotion w dt).ball.isHeld = w.ball.isHeld := by
  unfold ballMotion
  split <;> rfl

theorem wallPhase_vy_of_pos_y (w : World α) (hy : 0 < w.ball.rect.y) :
    (wallPhase w).1.ball.vy = w.ball.vy := by
  unfold wallPhase
  split
  · rfl
  · dsimp only
    split <;>
      (dsimp only
       split <;>
        (dsimp only
         rw [if_neg (not_le.mpr hy)]))

theorem paddlePhase_noop (bdir : α → α × α) (w : World α)
    (h : ¬(w.ball.isHeld = false ∧ 0 < w.ball.vy ∧
      rectOverlap w.ball.rect w.paddle.rect)) :
    paddlePhase bdir w = (w, []) := by
  unfold paddlePhase
  rw [if_neg h]

/-- The paddle-bounce direction the C source computes with `sinf`/`cosf`:
`(sin(u * 75deg), -cos(u * 75deg))`, the angle in radians. -/
noncomputable def paddleBounceDir : ℝ → ℝ × ℝ :=
  fun u => (Real.sin (u * (75 * Real.pi / 180)), -Real.cos (u * (75 * Real.pi / 180)))

theorem cos_bounce_pos (u : ℝ) (h1 : -1 ≤ u) (h2 : u ≤ 1) :
    0 < Real.cos (u * (75 * Real.pi / 180)) := by
  have hpi := Real.pi_pos
  have hth : (0 : ℝ) < 75 * Real.pi / 180 := by positivity
  apply Real.cos_pos_of_mem_Ioo
  constructor
  · nlinarith [mul_nonneg (by linarith : (0 : ℝ) ≤ u + 1) (le_of_lt hth)]
  · nlinarith [mul_nonneg (by linarith : (0 : ℝ) ≤ 1 - u) (le_of_lt hth)]

/-- C3: a free, downward-moving ball overlapping the paddle leaves the
paddle phase with direction `(sin(u * 75deg), -cos(u * 75deg))` for the
clamped impact offset `u`; the new vertical component is negative
(upward), the speed-growth multiplier is applied, the ball sits just
above the paddle, and in the immediately following step (as long as the
ball stays below the top wall) the paddle collision cannot re-trigger:
that step's paddle phase is a no-op. -/
theorem paddle_bounce_c3 (w : World ℝ)
    (hheld : w.ball.isHeld = false) (hdown : 0 < w.ball.vy)
    (hov : rectOverlap w.ball.rect w.paddle.rect) :
    (paddlePhase paddleBounceDir w).1.ball.vx =
      Real.sin (clampUnit (impactOffset w) * (75 * Real.pi / 180)) ∧
    (paddlePhase paddleBounceDir w).1.ball.vy =
      -Real.cos (clampUnit (impactOffset w) * (75 * Real.pi / 180)) ∧
    (paddlePhase paddleBounceDir w).1.ball.vy < 0 ∧
    (paddlePhase paddleBounceDir w).1.ball.speed = w.ball.speed * ballSpeedGrowth ∧
    (paddlePhase paddleBounceDir w).1.ball.rect.y =
      w.paddle.rect.y - w.ball.rect.h - 1 ∧
    (∀ dt2 : ℝ,
      0 < (ballMotion (paddlePhase paddleBounceDir w).1 dt2).ball.rect.y →
      paddlePhase paddleBounceDir
          (wallPhase (ballMotion (paddlePhase paddleBounceDir w).1 dt2)).1 =
        ((wallPhase (ballMotion (paddlePhase paddleBounceDir w).1 dt2)).1, [])) := by
  have hguard : w.ball.isHeld = false ∧ 0 < w.ball.vy ∧
      rectOverlap w.ball.rect w.paddle.rect := ⟨hheld, hdown, hov⟩
  have hvy : (paddlePhase paddleBounceDir w).1.ball.vy =
      -Real.cos (clampUnit (impactOffset w) * (75 * Real.pi / 180)) := by
    unfold paddlePhase
    rw [if_pos hguard]
    rfl
  have hneg : (paddlePhase paddleBounceDir w).1.ball.vy < 0 := by
    rw [hvy]
    have hb := clampUnit_mem (impactOffset w)
    exact neg_lt_zero.mpr (cos_bounce_pos _ hb.1 hb.2)
  refine ⟨?_, hvy, hneg, ?_, ?_, ?_⟩
  · unfold paddlePhase
    rw [if_pos hguard]
    rfl
  · unfold paddlePhase
    rw [if_pos hguard]
  · unfold paddlePhase
    rw [if_pos hguard]
  · intro dt2 hy2
    have hwvy : (wallPhase (ballMotion (paddlePhase paddleBounceDir w).1 dt2)).1.ball.vy =
        (paddlePhase paddleBounceDir w).1.ball.vy :=
      (wallPhase_vy_of_pos_y _ hy2).trans (ballMotion_vy _ _)
    apply paddlePhase_noop
    rintro ⟨-, hv, -⟩
    rw [hwvy] at hv
    exact absurd hv (not_lt.mpr hneg.le)

/-- A concrete playing state for the paddle bounce: the free ball falls
centered onto the paddle. -/
noncomputable def wC3 : World ℝ :=
  { paddle := { rect := ⟨0, 10, 4, 2⟩, velocityX := 0 },
    ball := { rect := ⟨1, 9, 2, 2⟩, vx := 0, vy := 1, speed := 420, isHeld := false },
    bricks := [],
    gs := { score := 0, lives := 3, level := 1, bricksRemaining := 1,
            isPaused := false, isRunning := true, showMenu := false },
    highScore := 0,
    leaderboard := [0, 0, 0, 0, 0] }

/-- Witness for C3 at the concrete state `wC3`. -/
theorem paddle_bounce_c3_witness :
    (paddlePhase paddleBounceDir wC3).1.ball.vx =
      Real.sin (clampUnit (impactOffset wC3) * (75 * Real.pi / 180)) ∧
    (paddlePhase paddleBounceDir wC3).1.ball.vy =
      -Real.cos (clampUnit (impactOffset wC3) * (75 * Real.pi / 180)) ∧
    (paddlePhase paddleBounceDir wC3).1.ball.vy < 0 ∧
    (paddlePhase paddleBounceDir wC3).1.ball.speed = wC3.ball.speed * ballSpeedGrowth ∧
    (paddlePhase paddleBounceDir wC3).1.ball.rect.y =
      wC3.paddle.rect.y - wC3.ball.rect.h - 1 ∧
    (∀ dt2 : ℝ,
      0 < (ballMotion (paddlePhase paddleBounceDir wC3).1 dt2).ball.rect.y →
      paddlePhase paddleBounceDir
          (wallPhase (ballMotion (paddlePhase paddleBounceDir wC3).1 dt2)).1 =
        ((wallPhase (ballMotion (paddlePhase paddleBounceDir wC3).1 dt2)).1, [])) :=
  paddle_bounce_c3 wC3 rfl (by norm_num [wC3])
    (by norm_num [rectOverlap, wC3])

theorem resolvePenetration_held (b : Ball α) (br : Rect α) :
    (resolvePenetration b br).isHeld = b.isHeld := by
  unfold resolvePenetration
  split <;> rfl

theorem brickScan_held (b : Ball α) (bs : List (Brick α)) :
    ∀ bc, (brickScan b bs).2 = some bc → bc.1.isHeld = b.isHeld := by
  induction bs with
  | nil => intro bc h; simp [brickScan] at h
  | cons br rest ih =>
    intro bc h
    by_cases hh : hitsBrick b br
    · simp only [brickScan, if_pos hh] at h
      cases h
      exact resolvePenetration_held b br.rect
    · simp only [brickScan, if_neg hh] at h
      exact ih bc h

theorem wallPhase_held (w : World α) :
    (wallPhase w).1.ball.isHeld = w.ball.isHeld := by
  unfold wallPhase
  split
  · rfl
  · dsimp only
    split <;> (dsimp only; split <;> (dsimp only; split <;> rfl))

theorem paddlePhase_held (bdir : α → α × α) (w : World α) :
    (paddlePhase bdir w).1.ball.isHeld = w.ball.isHeld := by
  unfold paddlePhase
  split <;> rfl

theorem brickPhase_held (w : World α) :
    (brickPhase w).1.ball.isHeld = w.ball.isHeld := by
  unfold brickPhase
  split
  · rfl
  · dsimp only
    cases hsc : (brickScan w.ball w.bricks).2 with
    | none => rfl
    | some bc => exact brickScan_held w.ball w.bricks bc hsc

theorem brickPhase_lives (w : World α) :
    (brickPhase w).1.gs.lives = w.gs.lives := by
  unfold brickPhase
  split
  · rfl
  · dsimp only
    cases (brickScan w.ball w.bricks).2 <;> rfl

/-- Recognizes the persistence call events among an engine step's
emitted events. -/
def isRecordEvent : Event → Bool
  | .record _ => true
  | _ => false

theorem wallPhase_no_record (w : World α) :
    (wallPhase w).2.filter isRecordEvent = [] := by
  unfold wallPhase
  split
  · rfl
  · dsimp only
    split <;> (dsimp only; split <;> (dsimp only; split <;> rfl))

theorem paddlePhase_no_record (bdir : α → α × α) (w : World α) :
    (paddlePhase bdir w).2.filter isRecordEvent = [] := by
  unfold paddlePhase
  split <;> rfl

theorem brickPhase_no_record (w : World α) :
    (brickPhase w).2.filter isRecordEvent = [] := by
  unfold brickPhase
  split
  · rfl
  · dsimp only
    cases (brickScan w.ball w.bricks).2 <;> rfl

/-- C4: from a state actively playing on its last life, an engine step
that puts the free ball below the bottom edge (after the collision
phases), while live bricks remain, turns the session terminal —
`is_running = 0`, `show_menu = 1` — and the step's events contain exactly
one persistence `record` call, carrying the final score. -/
theorem lives_exhaustion_c4 (layout : ℤ → List (Brick ℚ)) (bdir : ℚ → ℚ × ℚ)
    (w : World ℚ) (dt : ℚ)
    (hrun : w.gs.isRunning = true) (hpaused : w.gs.isPaused = false)
    (hmenu : w.gs.showMenu = false) (hlives : w.gs.lives = 1)
    (hheld : w.ball.isHeld = false)
    (hy : 640 < (preLifeState bdir w dt).ball.rect.y)
    (hrem : 0 < (preLifeState bdir w dt).gs.bricksRemaining) :
    (updateEngine layout bdir w dt).1.gs.isRunning = false ∧
    (updateEngine layout bdir w dt).1.gs.showMenu = true ∧
    (updateEngine layout bdir w dt).2.filter isRecordEvent =
      [Event.record (updateEngine layout bdir w dt).1.gs.score] := by
  have hg : ¬(w.gs.isRunning = false ∨ w.gs.isPaused = true ∨ w.gs.showMenu = true) := by
    simp [hrun, hpaused, hmenu]
  have hstep : updateEngine layout bdir w dt =
      ((levelPhase layout (lifePhase (preLifeState bdir w dt)).1).1,
        (wallPhase (ballMotion w dt)).2 ++
          (paddlePhase bdir (wallPhase (ballMotion w dt)).1).2 ++
          (brickPhase (paddlePhase bdir (wallPhase (ballMotion w dt)).1).1).2 ++
          (lifePhase (preLifeState bdir w dt)).2 ++
          (levelPhase layout (lifePhase (preLifeState bdir w dt)).1).2) := by
    unfold updateEngine
    rw [if_neg hg]
    rfl
  have hpheld : (preLifeState bdir w dt).ball.isHeld = false := by
    show (brickPhase _).1.ball.isHeld = false
    rw [brickPhase_held, paddlePhase_held, wallPhase_held, ballMotion_held, hheld]
  have hplives : (preLifeState bdir w dt).gs.lives = 1 := by
    show (brickPhase _).1.gs.lives = 1
    rw [brickPhase_lives, paddlePhase_gs, wallPhase_gs, ballMotion_gs, hlives]
  have hterm : (preLifeState bdir w dt).gs.lives - 1 ≤ 0 := by
    rw [hplives]
    omega
  have hlp : lifePhase (preLifeState bdir w dt) =
      ({ preLifeState bdir w dt with
          highScore :=
            if (preLifeState bdir w dt).highScore < (preLifeState bdir w dt).gs.score
            then (preLifeState bdir w dt).gs.score
            else (preLifeState bdir w dt).highScore,
          leaderboard :=
            (addToLeaderboard (preLifeState bdir w dt).leaderboard
              (preLifeState bdir w dt).gs.score).1,
          gs := { (preLifeState bdir w dt).gs with
            lives := (preLifeState bdir w dt).gs.lives - 1,
            showMenu := true, isRunning := false } },
        [Event.bounce, Event.record (preLifeState bdir w dt).gs.score]) := by
    unfold lifePhase
    rw [if_pos ⟨hpheld, hy⟩]
    dsimp only
    rw [if_pos hterm]
  have hlvl : levelPhase layout (lifePhase (preLifeState bdir w dt)).1 =
      ((lifePhase (preLifeState bdir w dt)).1, []) := by
    rw [hlp]
    unfold levelPhase
    rw [if_neg (by dsimp only; omega)]
  refine ⟨?_, ?_, ?_⟩
  · rw [hstep]
    dsimp only
    rw [hlvl, hlp]
  · rw [hstep]
    dsimp only
    rw [hlvl, hlp]
  · rw [hstep]
    dsimp only
    rw [hlvl, hlp]
    dsimp only
    simp only [List.filter_append, wallPhase_no_record, paddlePhase_no_record,
      brickPhase_no_record, List.filter_cons, List.filter_nil, isRecordEvent,
      List.nil_append, List.append_nil]
    simp

/-- A degenerate paddle-bounce direction map used to instantiate the
engine in concrete checks. -/
def bdirC4 : ℚ → ℚ × ℚ := fun _ => (0, -1)

/-- An empty level provider used to instantiate the engine in concrete
checks. -/
def layoutC4 : ℤ → List (Brick ℚ) := fun _ => []

/-- A concrete playing state on the last life whose free ball is already
below the bottom edge, with one live brick remaining far away. -/
def wC4 : World ℚ :=
  { paddle := { rect := ⟨410, 576, 140, 18⟩, velocityX := 0 },
    ball := { rect := ⟨100, 1000, 14, 14⟩, vx := 0, vy := 1, speed := 420, isHeld := false },
    bricks := [{ rect := ⟨2, 80, 76, 24⟩, isAlive := true, colorIndex := 0, special := false }],
    gs := { score := 30, lives := 1, level := 1, bricksRemaining := 1,
            isPaused := false, isRunning := true, showMenu := false },
    highScore := 0,
    leaderboard := [0, 0, 0, 0, 0] }

/-- Witness for C4: stepping `wC4` with dt = 0 ends the session and
records the final score exactly once. -/
theorem lives_exhaustion_c4_witness :
    (updateEngine layoutC4 bdirC4 wC4 0).1.gs.isRunning = false ∧
    (updateEngine layoutC4 bdirC4 wC4 0).1.gs.showMenu = true ∧
    (updateEngine layoutC4 bdirC4 wC4 0).2.filter isRecordEvent =
      [Event.record (updateEngine layoutC4 bdirC4 wC4 0).1.gs.score] :=
  lives_exhaustion_c4 layoutC4 bdirC4 wC4 0 rfl rfl rfl rfl rfl
    (by norm_num [preLifeState, brickPhase, paddlePhase, wallPhase, ballMotion,
      brickScan, hitsBrick, rectOverlap, wC4, bdirC4])
    (by norm_num [preLifeState, brickPhase, paddlePhase, wallPhase, ballMotion,
      brickScan, hitsBrick, rectOverlap, wC4, bdirC4])

end Arkanoid
